import Mathlib

/-!
Shallow embedding of the CareUltra record store client
(src/frontend/web/src/App.tsx): the record data model, the contract
key/value surface (getData/setData), loadRecords, submitRecord,
verifyRecord and rejectRecord, together with proofs about the
properties the design document states for them.

Modelling conventions:
- A stored byte value is abstracted by its JSON shape: empty bytes
  (length 0), bytes parsing to a record object, bytes parsing to an
  array of id strings, or non-empty bytes on which JSON.parse throws.
- A getData call either returns bytes or throws; a thrown call is the
  constructor Fetched.fail. setData is modelled as an atomic successful
  write of the given bytes under the given key.
- The React state touched by these handlers that the claims speak about
  (the records list and the stats object) is passed explicitly; the
  transient transaction banner is abstracted by the Outcome type.
- JavaScript strings are Lean Strings, JavaScript numbers occurring as
  timestamps are Lean Ints, and the falsy-default expression
  recordData.status || "pending" is modelled by defaulting the empty
  string (a missing or empty status field) to "pending".
-/

namespace CareUltra

/-- Record payload as stored in JSON under a key record_id: the fields
written by submitRecord in App.tsx (data, timestamp, owner, category,
status). -/
structure RecordData where
  data : String
  timestamp : Int
  owner : String
  category : String
  status : String
deriving DecidableEq

/-- Abstraction of the byte values held by the contract: empty bytes,
bytes that JSON-parse to a record object, bytes that JSON-parse to an
array of id strings, or non-empty bytes on which JSON.parse throws. -/
inductive Bytes where
  | empty
  | recordVal (r : RecordData)
  | listVal (ks : List String)
  | garbage
deriving DecidableEq

/-- The length-zero test recordBytes.length === 0 used throughout App.tsx. -/
def Bytes.isEmpty : Bytes → Bool
  | .empty => true
  | _ => false

/-- JSON.parse of stored bytes expected to hold a record object; none
models a thrown parse error. -/
def parseRecord : Bytes → Option RecordData
  | .recordVal r => some r
  | _ => none

/-- JSON.parse of stored bytes expected to hold an array of ids; none
models a thrown parse error. -/
def parseKeys : Bytes → Option (List String)
  | .listVal ks => some ks
  | _ => none

/-- Result of a contract.getData call: a thrown error or returned bytes. -/
inductive Fetched where
  | fail
  | ok (b : Bytes)
deriving DecidableEq

/-- The contract key/value storage as seen through getData. -/
def Store := String → Fetched

/-- contract.setData key value: the store after a successful write. -/
def setData (s : Store) (key : String) (b : Bytes) : Store :=
  fun k => if k = key then .ok b else s k

/-- The record shape held in the React records state, as assembled by
loadRecords from a storage key and its parsed record payload. -/
structure EncryptedRecord where
  id : String
  encryptedData : String
  timestamp : Int
  owner : String
  category : String
  status : String
deriving DecidableEq

/-- The falsy default recordData.status || "pending" from loadRecords:
an absent or empty status becomes pending. -/
def statusOrPending (s : String) : String :=
  if s = "" then "pending" else s

/-- The EncryptedRecord literal built in the loadRecords loop for key
and parsed payload rd. -/
def toEncryptedRecord (key : String) (rd : RecordData) : EncryptedRecord :=
  { id := key
    encryptedData := rd.data
    timestamp := rd.timestamp
    owner := rd.owner
    category := rd.category
    status := statusOrPending rd.status }

/-- The stats object computed by loadRecords; categoryStats is the
insertion-ordered association list behind the JS object. -/
structure Stats where
  totalRecords : Nat
  pending : Nat
  verified : Nat
  rejected : Nat
  categoryStats : List (String × Nat)
deriving DecidableEq

/-- The initial all-zero stats state of the App component. -/
def Stats.zero : Stats :=
  { totalRecords := 0, pending := 0, verified := 0, rejected := 0, categoryStats := [] }

/-- categoryStats[record.category] = (categoryStats[record.category] || 0) + 1
on the association-list view of the JS object. -/
def bumpCategory : List (String × Nat) → String → List (String × Nat)
  | [], c => [(c, 1)]
  | (k, n) :: rest, c =>
      if k = c then (k, n + 1) :: rest else (k, n) :: bumpCategory rest c

/-- Number of records in l carrying the given status string, matching
the if / else-if counters of the loadRecords loop. -/
def countStatus (l : List EncryptedRecord) (st : String) : Nat :=
  (l.filter (fun r => r.status = st)).length

/-- The stats object loadRecords derives from the loaded list. -/
def computeStats (l : List EncryptedRecord) : Stats :=
  { totalRecords := l.length
    pending := countStatus l "pending"
    verified := countStatus l "verified"
    rejected := countStatus l "rejected"
    categoryStats := l.foldl (fun m r => bumpCategory m r.category) [] }

/-- The read surface of the deployed contract: the isAvailable answer
(none models a thrown call) and getData. -/
structure Contract where
  avail : Option Bool
  getData : String → Fetched

/-- One iteration of the loadRecords loop for a single index key:
fetch record_key, skip on a thrown fetch, skip silently on empty
bytes, skip on a thrown parse, and otherwise build the record. -/
def fetchRecord (c : Contract) (key : String) : Option EncryptedRecord :=
  match c.getData ("record_" ++ key) with
  | .fail => none
  | .ok b =>
      if b.isEmpty then none
      else
        match parseRecord b with
        | none => none
        | some rd => some (toEncryptedRecord key rd)

/-- The list accumulated by the loadRecords loop over the index keys. -/
def parsedRecords (c : Contract) (keys : List String) : List EncryptedRecord :=
  keys.filterMap (fetchRecord c)

/-- Decoding of the index bytes shared by loadRecords and submitRecord:
keys stays [] when the bytes are empty or when JSON.parse throws. -/
def decodeKeys (kb : Bytes) : List String :=
  if kb.isEmpty then [] else (parseKeys kb).getD []

/-- The comparator (a, b) => b.timestamp - a.timestamp of the final
sort: a stays before b when a.timestamp is at least b.timestamp. -/
def tsGe (a b : EncryptedRecord) : Bool :=
  b.timestamp ≤ a.timestamp

/-- loadRecords: reads the index, loads each referenced record, sorts
by timestamp descending and recomputes the stats. prev is the React
(records, stats) state before the call; every early return and the
outer catch leave it untouched, since setRecords and setStats are only
reached on the success path. -/
def loadRecords (c : Contract) (prev : List EncryptedRecord × Stats) :
    List EncryptedRecord × Stats :=
  match c.avail with
  | none => prev
  | some false => prev
  | some true =>
      match c.getData "record_keys" with
      | .fail => prev
      | .ok kb =>
          let list := parsedRecords c (decodeKeys kb)
          (list.mergeSort tsGe, computeStats list)

/-- The distinct thrown errors the mutation handlers can catch. -/
inductive JsError where
  | fetchFailed
  | recordNotFound
  | parseFailed
deriving DecidableEq

/-- User-visible outcome of a mutation handler: the success banner, the
connect-wallet alert of the missing-provider early return, or the error
banner for a caught exception. -/
inductive Outcome where
  | success
  | noProvider
  | failure (e : JsError)
deriving DecidableEq

/-- Common body of verifyRecord and rejectRecord: read record_recordId,
throw when the fetch fails, throw Record not found on empty bytes,
parse, spread the parsed object with the new status, and write it
back. -/
def updateStatus (hasProvider : Bool) (store : Store) (recordId : String)
    (newStatus : String) : Store × Outcome :=
  if hasProvider = false then (store, .noProvider)
  else
    match store ("record_" ++ recordId) with
    | .fail => (store, .failure .fetchFailed)
    | .ok b =>
        if b.isEmpty then (store, .failure .recordNotFound)
        else
          match parseRecord b with
          | none => (store, .failure .parseFailed)
          | some rd =>
              (setData store ("record_" ++ recordId)
                (.recordVal { rd with status := newStatus }), .success)

/-- verifyRecord from App.tsx. -/
def verifyRecord (hasProvider : Bool) (store : Store) (recordId : String) :
    Store × Outcome :=
  updateStatus hasProvider store recordId "verified"

/-- rejectRecord from App.tsx. -/
def rejectRecord (hasProvider : Bool) (store : Store) (recordId : String) :
    Store × Outcome :=
  updateStatus hasProvider store recordId "rejected"

/-- submitRecord from App.tsx: requires a provider, writes the new
record with status pending under record_recordId, re-reads the index,
appends the new id and rewrites the index. The generated id and the
encrypted form data are parameters of the model. -/
def submitRecord (hasProvider : Bool) (store : Store) (recordId : String)
    (encryptedData : String) (timestamp : Int) (owner : String)
    (category : String) : Store × Outcome :=
  if hasProvider = false then (store, .noProvider)
  else
    let rd : RecordData :=
      { data := encryptedData, timestamp := timestamp, owner := owner,
        category := category, status := "pending" }
    let store1 := setData store ("record_" ++ recordId) (.recordVal rd)
    match store1 "record_keys" with
    | .fail => (store1, .failure .fetchFailed)
    | .ok kb =>
        (setData store1 "record_keys" (.listVal (decodeKeys kb ++ [recordId])),
         .success)

/-- The status field of the record stored under record_recordId, when
those bytes exist and parse to a record. -/
def statusOf (store : Store) (recordId : String) : Option String :=
  match store ("record_" ++ recordId) with
  | .ok (.recordVal rd) => some rd.status
  | _ => none

/-- A status-changing UI action. -/
inductive StatusAction where
  | verify (recordId : String)
  | reject (recordId : String)

/-- The record id an action targets. -/
def StatusAction.target : StatusAction → String
  | .verify i => i
  | .reject i => i

/-- The store after running a status action with a connected signer. -/
def applyAction (store : Store) : StatusAction → Store
  | .verify i => (verifyRecord true store i).1
  | .reject i => (rejectRecord true store i).1

/-- The UI exposes Verify and Reject only on rows whose displayed status
is pending (the record.status === "pending" guard on the action
buttons): an action the UI can issue targets a currently pending
record. -/
def Guarded (store : Store) (a : StatusAction) : Prop :=
  statusOf store a.target = some "pending"

/-- Stores reachable from s by a sequence of UI-issued (guarded) status
actions. -/
inductive GuardedReach : Store → Store → Prop where
  | refl (s : Store) : GuardedReach s s
  | step {s t : Store} {a : StatusAction} :
      GuardedReach s t → Guarded t a → GuardedReach s (applyAction t a)

/-! Helper lemmas about the storage key namespace and single writes. -/

/-- Appending to a common leading segment is injective on Strings. -/
theorem string_append_left_cancel {p a b : String} (h : p ++ a = p ++ b) :
    a = b := by
  have hd : (p ++ a).data = (p ++ b).data := congrArg String.data h
  simp [String.data_append] at hd
  exact String.ext hd

/-- Distinct record ids live under distinct storage keys. -/
theorem recordKey_ne {a b : String} (h : a ≠ b) :
    ("record_" ++ a : String) ≠ "record_" ++ b :=
  fun hc => h (string_append_left_cancel hc)

/-- Reading the written key after setData. -/
theorem setData_same (s : Store) (key : String) (b : Bytes) :
    setData s key b key = .ok b := by
  simp [setData]

/-- Reading any other key after setData. -/
theorem setData_ne (s : Store) (key : String) (b : Bytes) {k : String}
    (h : k ≠ key) : setData s key b k = s k := by
  simp [setData, h]

/-- updateStatus touches no storage key other than the one of its
target record. -/
theorem updateStatus_frame (hp : Bool) (s : Store) (i st : String)
    {k : String} (hk : k ≠ "record_" ++ i) :
    (updateStatus hp s i st).1 k = s k := by
  unfold updateStatus
  cases hp with
  | false => rfl
  | true =>
      cases hb : s ("record_" ++ i) with
      | fail => simp
      | ok b => cases b <;> simp [Bytes.isEmpty, parseRecord, setData_ne _ _ _ hk]

/-- updateStatus on an existing, parseable record rewrites exactly that
record with the new status merged in. -/
theorem updateStatus_sets (s : Store) (i st : String) (rd : RecordData)
    (h : s ("record_" ++ i) = .ok (.recordVal rd)) :
    updateStatus true s i st =
      (setData s ("record_" ++ i) (.recordVal { rd with status := st }),
       .success) := by
  unfold updateStatus
  rw [h]
  simp [Bytes.isEmpty, parseRecord]

/-- Unfolding statusOf when it yields a status. -/
theorem statusOf_some {s : Store} {i st : String}
    (h : statusOf s i = some st) :
    ∃ rd : RecordData,
      s ("record_" ++ i) = .ok (.recordVal rd) ∧ rd.status = st := by
  unfold statusOf at h
  cases hb : s ("record_" ++ i) with
  | fail => rw [hb] at h; exact absurd h (by simp)
  | ok b =>
      cases b with
      | recordVal rd =>
          refine ⟨rd, rfl, ?_⟩
          rw [hb] at h
          exact Option.some_injective _ h
      | empty => rw [hb] at h; exact absurd h (by simp)
      | listVal ks => rw [hb] at h; exact absurd h (by simp)
      | garbage => rw [hb] at h; exact absurd h (by simp)

/-- A status action leaves the status of every other record unchanged. -/
theorem statusOf_applyAction_ne (s : Store) (a : StatusAction) {i : String}
    (h : i ≠ a.target) : statusOf (applyAction s a) i = statusOf s i := by
  have hk : ("record_" ++ i : String) ≠ "record_" ++ a.target := recordKey_ne h
  cases a with
  | verify j =>
      simp only [StatusAction.target] at hk
      simp only [applyAction, verifyRecord, statusOf,
        updateStatus_frame true s j "verified" hk]
  | reject j =>
      simp only [StatusAction.target] at hk
      simp only [applyAction, rejectRecord, statusOf,
        updateStatus_frame true s j "rejected" hk]

/-- Unfolding of loadRecords on an available contract whose index fetch
returns bytes kb. -/
theorem loadRecords_ok (c : Contract) (prev : List EncryptedRecord × Stats)
    (kb : Bytes) (ha : c.avail = some true)
    (hk : c.getData "record_keys" = .ok kb) :
    loadRecords c prev =
      ((parsedRecords c (decodeKeys kb)).mergeSort tsGe,
       computeStats (parsedRecords c (decodeKeys kb))) := by
  unfold loadRecords
  rw [ha, hk]

/-- The comparator tsGe is transitive. -/
theorem tsGe_trans (x y z : EncryptedRecord) (h1 : tsGe x y) (h2 : tsGe y z) :
    tsGe x z := by
  unfold tsGe at h1 h2 ⊢
  simp only [decide_eq_true_eq] at h1 h2 ⊢
  omega

/-- The comparator tsGe is total. -/
theorem tsGe_total (x y : EncryptedRecord) : tsGe x y || tsGe y x := by
  unfold tsGe
  simp only [Bool.or_eq_true, decide_eq_true_eq]
  omega

/-! Sample stores and contracts used to instantiate the theorems at
concrete inputs. -/

/-- A store holding empty bytes under every key. -/
def emptyStore : Store := fun _ => .ok .empty

/-- A concrete pending record payload. -/
def samplePending : RecordData :=
  { data := "d0", timestamp := 5, owner := "0xabc", category := "KYC",
    status := "pending" }

/-- A concrete rejected record payload. -/
def sampleRejected : RecordData :=
  { data := "d0", timestamp := 5, owner := "0xabc", category := "KYC",
    status := "rejected" }

/-- A store holding a single pending record under id r1. -/
def storePending : Store :=
  fun k => if k = "record_r1" then .ok (.recordVal samplePending) else .ok .empty

/-- A store holding a single rejected record under id r1. -/
def storeRejected : Store :=
  fun k => if k = "record_r1" then .ok (.recordVal sampleRejected) else .ok .empty

/-! Claim theorems. -/

/-- Claim C4: a status update (verifyRecord or rejectRecord) on an id
whose stored record bytes are empty fails with the user-visible
Record-not-found error for that action and performs no write: the
returned store is exactly the input store. -/
theorem c4_missing_record_no_write (store : Store) (recordId : String)
    (h : store ("record_" ++ recordId) = .ok .empty) :
    verifyRecord true store recordId = (store, .failure .recordNotFound) ∧
    rejectRecord true store recordId = (store, .failure .recordNotFound) := by
  constructor
  · unfold verifyRecord updateStatus
    rw [h]
    simp [Bytes.isEmpty]
  · unfold rejectRecord updateStatus
    rw [h]
    simp [Bytes.isEmpty]

/-- Witness for C4 at a concrete store with no record under id r1. -/
theorem c4_missing_record_witness :
    emptyStore ("record_" ++ "r1") = .ok .empty ∧
    (verifyRecord true emptyStore "r1" = (emptyStore, .failure .recordNotFound) ∧
     rejectRecord true emptyStore "r1" = (emptyStore, .failure .recordNotFound)) :=
  ⟨rfl, c4_missing_record_no_write emptyStore "r1" rfl⟩

/-- Claim C9: a status update on an existing record merges only the new
status into the stored record: the rewritten record keeps the data,
timestamp, owner and category of the parsed record and changes only the
status field. -/
theorem c9_update_preserves_fields (store : Store) (recordId : String)
    (rd : RecordData)
    (h : store ("record_" ++ recordId) = .ok (.recordVal rd)) :
    (verifyRecord true store recordId).1 ("record_" ++ recordId) =
      .ok (.recordVal
        { data := rd.data, timestamp := rd.timestamp, owner := rd.owner,
          category := rd.category, status := "verified" }) ∧
    (rejectRecord true store recordId).1 ("record_" ++ recordId) =
      .ok (.recordVal
        { data := rd.data, timestamp := rd.timestamp, owner := rd.owner,
          category := rd.category, status := "rejected" }) := by
  constructor
  · rw [verifyRecord, updateStatus_sets store recordId "verified" rd h]
    exact setData_same _ _ _
  · rw [rejectRecord, updateStatus_sets store recordId "rejected" rd h]
    exact setData_same _ _ _

/-- Witness for C9 at a concrete store holding a pending record. -/
theorem c9_update_preserves_fields_witness :
    storePending ("record_" ++ "r1") = .ok (.recordVal samplePending) ∧
    ((verifyRecord true storePending "r1").1 ("record_" ++ "r1") =
      .ok (.recordVal
        { data := samplePending.data, timestamp := samplePending.timestamp,
          owner := samplePending.owner, category := samplePending.category,
          status := "verified" }) ∧
     (rejectRecord true storePending "r1").1 ("record_" ++ "r1") =
      .ok (.recordVal
        { data := samplePending.data, timestamp := samplePending.timestamp,
          owner := samplePending.owner, category := samplePending.category,
          status := "rejected" })) :=
  ⟨by decide, c9_update_preserves_fields storePending "r1" samplePending (by decide)⟩

/-- Claim C10: when the stored index bytes are non-empty but fail to
JSON-parse, submitRecord proceeds with an empty key list and rewrites
the index to hold only the new record id. -/
theorem c10_garbage_index (store : Store) (recordId : String)
    (d owner category : String) (ts : Int)
    (hid : recordId ≠ "keys")
    (hg : store "record_keys" = .ok .garbage) :
    (submitRecord true store recordId d ts owner category).1 "record_keys" =
      .ok (.listVal [recordId]) ∧
    (submitRecord true store recordId d ts owner category).2 = .success := by
  have hne : ("record_keys" : String) ≠ "record_" ++ recordId := by
    intro hc
    exact recordKey_ne (Ne.symm hid) (by rw [← hc]; rfl)
  have h1 : ∀ b, setData store ("record_" ++ recordId) b "record_keys" =
      store "record_keys" := fun b => setData_ne _ _ b hne
  simp [submitRecord, h1, hg, decodeKeys, Bytes.isEmpty, parseKeys, setData_same]

/-- A store whose index bytes are non-empty garbage. -/
def storeGarbageIndex : Store :=
  fun k => if k = "record_keys" then .ok .garbage else .ok .empty

/-- Witness for C10 at a concrete store with an unparseable index. -/
theorem c10_garbage_index_witness :
    ("r1" : String) ≠ "keys" ∧
    storeGarbageIndex "record_keys" = .ok .garbage ∧
    ((submitRecord true storeGarbageIndex "r1" "d0" 5 "0xabc" "KYC").1
        "record_keys" = .ok (.listVal ["r1"]) ∧
     (submitRecord true storeGarbageIndex "r1" "d0" 5 "0xabc" "KYC").2 =
       .success) :=
  ⟨by decide, rfl,
   c10_garbage_index storeGarbageIndex "r1" "d0" "0xabc" "KYC" 5 (by decide) rfl⟩

/-- Claim C1 counterexample: the raw handlers do not make verified and
rejected terminal. On a store holding a record whose status is
rejected, a single verifyRecord call moves that record to verified. -/
theorem c1_counterexample :
    statusOf storeRejected "r1" = some "rejected" ∧
    statusOf (verifyRecord true storeRejected "r1").1 "r1" = some "verified" := by
  constructor <;> decide

/-- Claim C1 (amended): verifyRecord and rejectRecord overwrite the
status unconditionally; the one-way discipline holds only for the calls
the UI can issue, which exposes Verify and Reject solely on records
whose current status is pending. First part: a call on a pending record
moves it to verified respectively rejected. Second part: along any
sequence of UI-issuable (guarded) calls, verified and rejected are
terminal, so no record returns to pending and no record moves between
verified and rejected. -/
theorem c1_guarded_status_machine :
    (∀ (s : Store) (i : String), statusOf s i = some "pending" →
        statusOf (applyAction s (.verify i)) i = some "verified" ∧
        statusOf (applyAction s (.reject i)) i = some "rejected") ∧
    (∀ (s t : Store), GuardedReach s t → ∀ (i st : String),
        st = "verified" ∨ st = "rejected" →
        statusOf s i = some st → statusOf t i = some st) := by
  constructor
  · intro s i h
    obtain ⟨rd, hb, _⟩ := statusOf_some h
    constructor
    · simp [applyAction, verifyRecord,
        updateStatus_sets s i "verified" rd hb, statusOf, setData_same]
    · simp [applyAction, rejectRecord,
        updateStatus_sets s i "rejected" rd hb, statusOf, setData_same]
  · intro s t hreach
    induction hreach with
    | refl => exact fun i st _ h => h
    | @step t1 a hr hg ih =>
        intro i st hst h
        by_cases hi : i = a.target
        · exfalso
          have h1 := ih i st hst h
          have hg1 : statusOf t1 a.target = some "pending" := hg
          subst hi
          have h3 : ("pending" : String) = st :=
            Option.some_injective _ (hg1.symm.trans h1)
          cases hst with
          | inl he => rw [he] at h3; exact absurd h3 (by decide)
          | inr he => rw [he] at h3; exact absurd h3 (by decide)
        · rw [statusOf_applyAction_ne t1 a hi]
          exact ih i st hst h

/-- Witness for the amended C1 at a concrete store holding a pending
record under id r1. -/
theorem c1_guarded_status_machine_witness :
    statusOf storePending "r1" = some "pending" ∧
    statusOf (applyAction storePending (.verify "r1")) "r1" = some "verified" ∧
    statusOf (applyAction storePending (.reject "r1")) "r1" = some "rejected" :=
  ⟨by decide,
   (c1_guarded_status_machine.1 storePending "r1" (by decide)).1,
   (c1_guarded_status_machine.1 storePending "r1" (by decide)).2⟩

/-- A contract whose every getData call throws. -/
def failingContract : Contract :=
  { avail := some true, getData := fun _ => .fail }

/-- A sample record already present in the React records state. -/
def sampleLoadedRecord : EncryptedRecord :=
  { id := "r1", encryptedData := "d0", timestamp := 5, owner := "0xabc",
    category := "KYC", status := "pending" }

/-- Claim C2 counterexample: when the records state already holds a
record and the fetch of the index key throws, loadRecords leaves the
previous non-empty list in place, so the resulting records state is not
the empty list. -/
theorem c2_counterexample :
    (loadRecords failingContract ([sampleLoadedRecord], Stats.zero)).1 =
      [sampleLoadedRecord] ∧
    [sampleLoadedRecord] ≠ ([] : List EncryptedRecord) := by
  constructor
  · rfl
  · decide

/-- Claim C2 (amended): if the fetch of the index key throws during
load, loadRecords surfaces no error and makes no retry, and leaves the
(records, stats) state unchanged at its previous value; the resulting
list is therefore empty exactly on the initial load, whose previous
state is the empty list. -/
theorem c2_index_fetch_fail_keeps_state (c : Contract)
    (prev : List EncryptedRecord × Stats)
    (hfail : c.getData "record_keys" = .fail) :
    loadRecords c prev = prev := by
  cases havail : c.avail with
  | none => simp [loadRecords, havail]
  | some b =>
      cases b with
      | false => simp [loadRecords, havail]
      | true => simp [loadRecords, havail, hfail]

/-- Witness for the amended C2 on the initial, empty state. -/
theorem c2_index_fetch_fail_witness :
    failingContract.getData "record_keys" = .fail ∧
    loadRecords failingContract ([], Stats.zero) = ([], Stats.zero) :=
  ⟨rfl, c2_index_fetch_fail_keeps_state failingContract ([], Stats.zero) rfl⟩

/-- A contract holding empty bytes under every key, in particular an
empty index. -/
def emptyIndexContract : Contract :=
  { avail := some true, getData := fun _ => .ok .empty }

/-- Claim C7: loading when the stored index value is the empty byte
string, or parses to the empty array, yields zero records and all-zero
stats with an empty per-category table. -/
theorem c7_empty_index_zero_stats (c : Contract)
    (prev : List EncryptedRecord × Stats) (ha : c.avail = some true)
    (hk : c.getData "record_keys" = .ok .empty ∨
          c.getData "record_keys" = .ok (.listVal [])) :
    loadRecords c prev = ([], Stats.zero) := by
  cases hk with
  | inl h =>
      simp [loadRecords, ha, h, decodeKeys, Bytes.isEmpty, parsedRecords,
        List.mergeSort_nil, computeStats, countStatus, Stats.zero]
  | inr h =>
      simp [loadRecords, ha, h, decodeKeys, Bytes.isEmpty, parseKeys,
        parsedRecords, List.mergeSort_nil, computeStats, countStatus,
        Stats.zero]

/-- Witness for C7: an empty index loaded over a previously non-empty
state still yields zero records and all-zero stats. -/
theorem c7_empty_index_witness :
    emptyIndexContract.avail = some true ∧
    loadRecords emptyIndexContract ([sampleLoadedRecord], Stats.zero) =
      ([], Stats.zero) :=
  ⟨rfl,
   c7_empty_index_zero_stats emptyIndexContract
     ([sampleLoadedRecord], Stats.zero) rfl (Or.inl rfl)⟩

/-- One bumpCategory call adds exactly one to the total of the counts. -/
theorem bumpCategory_sum (m : List (String × Nat)) (c : String) :
    ((bumpCategory m c).map Prod.snd).sum = (m.map Prod.snd).sum + 1 := by
  induction m with
  | nil => simp [bumpCategory]
  | cons p rest ih =>
      obtain ⟨k, n⟩ := p
      by_cases hk : k = c
      · simp [bumpCategory, hk]
        omega
      · simp [bumpCategory, hk, ih]
        omega

/-- Folding bumpCategory over a record list adds the list length to the
total of the counts. -/
theorem categoryFold_sum (l : List EncryptedRecord) :
    ∀ m : List (String × Nat),
      ((l.foldl (fun m r => bumpCategory m r.category) m).map Prod.snd).sum =
        (m.map Prod.snd).sum + l.length := by
  induction l with
  | nil => intro m; simp
  | cons r rest ih =>
      intro m
      simp [ih (bumpCategory m r.category), bumpCategory_sum]
      omega

/-- Claim C8: for every loaded list, the per-category counts computed
by the loadRecords stats pass sum to totalRecords, the number of
records in the list; in particular this holds for the stats state left
by any successful loadRecords call. -/
theorem c8_category_counts_sum :
    (∀ l : List EncryptedRecord,
      ((computeStats l).categoryStats.map Prod.snd).sum =
        (computeStats l).totalRecords) ∧
    (∀ (c : Contract) (prev : List EncryptedRecord × Stats) (kb : Bytes),
      c.avail = some true → c.getData "record_keys" = .ok kb →
      ((loadRecords c prev).2.categoryStats.map Prod.snd).sum =
        (loadRecords c prev).2.totalRecords) := by
  have hmain : ∀ l : List EncryptedRecord,
      ((computeStats l).categoryStats.map Prod.snd).sum =
        (computeStats l).totalRecords := by
    intro l
    simp [computeStats, categoryFold_sum l []]
  refine ⟨hmain, ?_⟩
  intro c prev kb ha hk
  have hload : loadRecords c prev =
      ((parsedRecords c (decodeKeys kb)).mergeSort tsGe,
       computeStats (parsedRecords c (decodeKeys kb))) := by
    unfold loadRecords
    rw [ha, hk]
  rw [hload]
  exact hmain _

/-- Witness for C8 on a concrete successful load. -/
theorem c8_category_counts_sum_witness :
    emptyIndexContract.avail = some true ∧
    emptyIndexContract.getData "record_keys" = .ok .empty ∧
    ((loadRecords emptyIndexContract ([], Stats.zero)).2.categoryStats.map
        Prod.snd).sum =
      (loadRecords emptyIndexContract ([], Stats.zero)).2.totalRecords :=
  ⟨rfl, rfl,
   c8_category_counts_sum.2 emptyIndexContract ([], Stats.zero) .empty rfl rfl⟩

/-- Claim C5: during load, a key whose record fetch throws or whose
record bytes fail to JSON-parse is skipped: it contributes nothing to
the loaded list, every other key is still processed, and a successful
load computes both the list and the stats from that skipped-free
list. -/
theorem c5_failed_record_skipped (c : Contract) (ks1 ks2 : List String)
    (k : String)
    (hbad : c.getData ("record_" ++ k) = .fail ∨
            c.getData ("record_" ++ k) = .ok .garbage) :
    parsedRecords c (ks1 ++ k :: ks2) =
      parsedRecords c ks1 ++ parsedRecords c ks2 ∧
    (∀ prev : List EncryptedRecord × Stats, c.avail = some true →
      c.getData "record_keys" = .ok (.listVal (ks1 ++ k :: ks2)) →
      loadRecords c prev =
        ((parsedRecords c ks1 ++ parsedRecords c ks2).mergeSort tsGe,
         computeStats (parsedRecords c ks1 ++ parsedRecords c ks2))) := by
  have hskip : fetchRecord c k = none := by
    cases hbad with
    | inl h => simp [fetchRecord, h]
    | inr h => simp [fetchRecord, h, Bytes.isEmpty, parseRecord]
  have hsplit : parsedRecords c (ks1 ++ k :: ks2) =
      parsedRecords c ks1 ++ parsedRecords c ks2 := by
    simp [parsedRecords, List.filterMap_append, List.filterMap_cons, hskip]
  refine ⟨hsplit, ?_⟩
  intro prev ha hk
  unfold loadRecords
  rw [ha, hk]
  simp [decodeKeys, Bytes.isEmpty, parseKeys, hsplit]

/-- A concrete record payload with timestamp 3. -/
def rdA : RecordData :=
  { data := "dA", timestamp := 3, owner := "0xabc", category := "KYC",
    status := "pending" }

/-- A concrete record payload with timestamp 9. -/
def rdB : RecordData :=
  { data := "dB", timestamp := 9, owner := "0xabc", category := "Credit",
    status := "verified" }

/-- A contract with a three-key index whose middle key throws on
fetch. -/
def demoContract : Contract :=
  { avail := some true
    getData := fun k =>
      if k = "record_keys" then .ok (.listVal ["a", "bad", "b"])
      else if k = "record_a" then .ok (.recordVal rdA)
      else if k = "record_b" then .ok (.recordVal rdB)
      else if k = "record_bad" then .fail
      else .ok .empty }

/-- Witness for C5 on the concrete contract with a throwing middle
key. -/
theorem c5_failed_record_skipped_witness :
    demoContract.getData ("record_" ++ "bad") = .fail ∧
    parsedRecords demoContract (["a"] ++ "bad" :: ["b"]) =
      parsedRecords demoContract ["a"] ++ parsedRecords demoContract ["b"] :=
  ⟨by decide,
   (c5_failed_record_skipped demoContract ["a"] ["b"] "bad"
     (Or.inl (by decide))).1⟩

/-- Claim C6: the list produced by a successful loadRecords call is
sorted by descending timestamp — every record's timestamp is at least
the timestamp of each later record — and is a permutation of the
successfully parsed records of the index. -/
theorem c6_sorted_descending (c : Contract)
    (prev : List EncryptedRecord × Stats) (kb : Bytes)
    (ha : c.avail = some true) (hk : c.getData "record_keys" = .ok kb) :
    (loadRecords c prev).1.Pairwise
      (fun a b => b.timestamp ≤ a.timestamp) ∧
    List.Perm (loadRecords c prev).1 (parsedRecords c (decodeKeys kb)) := by
  have hload : (loadRecords c prev).1 =
      (parsedRecords c (decodeKeys kb)).mergeSort tsGe := by
    unfold loadRecords
    rw [ha, hk]
  rw [hload]
  constructor
  · have hs := @List.sorted_mergeSort EncryptedRecord tsGe tsGe_trans
      tsGe_total (parsedRecords c (decodeKeys kb))
    exact hs.imp (fun h => by
      unfold tsGe at h
      exact of_decide_eq_true h)
  · exact List.mergeSort_perm _ _

/-- Witness for C6 on the concrete three-key contract. -/
theorem c6_sorted_descending_witness :
    demoContract.avail = some true ∧
    demoContract.getData "record_keys" = .ok (.listVal ["a", "bad", "b"]) ∧
    ((loadRecords demoContract ([], Stats.zero)).1.Pairwise
        (fun a b => b.timestamp ≤ a.timestamp) ∧
     List.Perm (loadRecords demoContract ([], Stats.zero)).1
       (parsedRecords demoContract
         (decodeKeys (.listVal ["a", "bad", "b"])))) :=
  ⟨rfl, by decide,
   c6_sorted_descending demoContract ([], Stats.zero)
     (.listVal ["a", "bad", "b"]) rfl (by decide)⟩

/-- Claim C3: with a connected signer, a create invocation reports
success, stores the new record with status pending under
record_recordId, rewrites the index to the previous index with the new
id appended, and the created record appears in the list produced by the
subsequent reload. Hypotheses: the generated id differs from the
literal "keys" (generated ids are timestamp-dash-random strings, so the
record key never collides with the index key), and the stored index
bytes are absent or parse to the id list keys. -/
theorem c3_submit_creates_pending (store : Store) (recordId : String)
    (d owner category : String) (ts : Int) (keys : List String)
    (prev : List EncryptedRecord × Stats)
    (hid : recordId ≠ "keys")
    (hidx : store "record_keys" = .ok (.listVal keys) ∨
            (store "record_keys" = .ok .empty ∧ keys = [])) :
    (submitRecord true store recordId d ts owner category).2 = .success ∧
    (submitRecord true store recordId d ts owner category).1
        ("record_" ++ recordId) =
      .ok (.recordVal ⟨d, ts, owner, category, "pending"⟩) ∧
    (submitRecord true store recordId d ts owner category).1 "record_keys" =
      .ok (.listVal (keys ++ [recordId])) ∧
    toEncryptedRecord recordId ⟨d, ts, owner, category, "pending"⟩ ∈
      (loadRecords
        ⟨some true, (submitRecord true store recordId d ts owner category).1⟩
        prev).1 := by
  have hne : ("record_keys" : String) ≠ "record_" ++ recordId := by
    intro hc
    exact recordKey_ne (Ne.symm hid) (by rw [← hc]; rfl)
  have h1 : ∀ b, setData store ("record_" ++ recordId) b "record_keys" =
      store "record_keys" := fun b => setData_ne _ _ b hne
  have hsub : submitRecord true store recordId d ts owner category =
      (setData
        (setData store ("record_" ++ recordId)
          (.recordVal ⟨d, ts, owner, category, "pending"⟩))
        "record_keys" (.listVal (keys ++ [recordId])), .success) := by
    cases hidx with
    | inl h =>
        simp [submitRecord, h1, h, decodeKeys, Bytes.isEmpty, parseKeys]
    | inr h =>
        obtain ⟨h, hkeys⟩ := h
        subst hkeys
        simp [submitRecord, h1, h, decodeKeys, Bytes.isEmpty]
  have h2 : ∀ (s : Store) (b : Bytes),
      setData s "record_keys" b ("record_" ++ recordId) =
        s ("record_" ++ recordId) :=
    fun s b => setData_ne _ _ b (Ne.symm hne)
  have hrec : (submitRecord true store recordId d ts owner category).1
      ("record_" ++ recordId) =
      .ok (.recordVal ⟨d, ts, owner, category, "pending"⟩) := by
    simp [hsub, h2, setData_same]
  have hkeys2 : (submitRecord true store recordId d ts owner category).1
      "record_keys" = .ok (.listVal (keys ++ [recordId])) := by
    simp [hsub, setData_same]
  refine ⟨by rw [hsub], hrec, hkeys2, ?_⟩
  rw [loadRecords_ok
    ⟨some true, (submitRecord true store recordId d ts owner category).1⟩
    prev (.listVal (keys ++ [recordId])) rfl hkeys2]
  refine List.mem_mergeSort.mpr ?_
  refine List.mem_filterMap.mpr ⟨recordId, ?_, ?_⟩
  · simp [decodeKeys, Bytes.isEmpty, parseKeys]
  · simp [fetchRecord, hrec, Bytes.isEmpty, parseRecord]

/-- Witness for C3: creating a record in an entirely empty store. -/
theorem c3_submit_creates_pending_witness :
    ("r1" : String) ≠ "keys" ∧
    emptyStore "record_keys" = .ok .empty ∧
    ((submitRecord true emptyStore "r1" "d0" 5 "0xabc" "KYC").2 = .success ∧
     (submitRecord true emptyStore "r1" "d0" 5 "0xabc" "KYC").1
         ("record_" ++ "r1") =
       .ok (.recordVal ⟨"d0", 5, "0xabc", "KYC", "pending"⟩) ∧
     (submitRecord true emptyStore "r1" "d0" 5 "0xabc" "KYC").1
         "record_keys" =
       .ok (.listVal (([] : List String) ++ ["r1"])) ∧
     toEncryptedRecord "r1" ⟨"d0", 5, "0xabc", "KYC", "pending"⟩ ∈
       (loadRecords
         ⟨some true, (submitRecord true emptyStore "r1" "d0" 5 "0xabc" "KYC").1⟩
         ([], Stats.zero)).1) :=
  ⟨by decide, rfl,
   c3_submit_creates_pending emptyStore "r1" "d0" "0xabc" "KYC" 5 []
     ([], Stats.zero) (by decide) (Or.inr ⟨rfl, rfl⟩)⟩

end CareUltra
